import Mathlib

/-!
Verification development for `src/index.js` of TroiaAccount/shopify_downloader.

The program has three pieces:
* `fetchAllFiles` (src/index.js:23-110): cursor-based pagination over a
  GraphQL `files` query, accumulating all edge nodes until
  `pageInfo.hasNextPage` is false.
* `resolveFileInfo` (src/index.js:113-141): a switch on `__typename`
  producing the URL-bearing field and the target subfolder.
* `downloadFiles` (src/index.js:144-185): the sequential download loop with
  existence-based skipping and progress counters, wrapped by the main IIFE
  (src/index.js:188-199).

The embedding below models the network as a scripted sequence of page
responses (for the enumerator) and a deterministic content-fetch oracle plus
a write-failure oracle (for the pipeline); the filesystem is an association
list from paths to contents.
-/

set_option autoImplicit false

/-- One GraphQL file node as selected by the query at src/index.js:35-63.
`typename` models `__typename`; the kind-specific URL-bearing fields are
`Option`-valued because in JS an absent field (or an absent nested object
under optional chaining) reads as `undefined`.  The queried but logically
unused fields `alt` and `fileStatus` are omitted. -/
structure ResourceRecord where
  typename : String
  id : String
  createdAt : String
  /-- `GenericFile.url` -/
  url : Option String
  /-- `MediaImage.image?.url` -/
  imageUrl : Option String
  /-- `Video.originalSource?.url` and `Model3d.originalSource?.url` -/
  originalSourceUrl : Option String
  /-- `ExternalVideo.embeddedUrl` -/
  embeddedUrl : Option String
  deriving Repr, DecidableEq, Inhabited

/-- One edge of the paginated `files` connection: a per-edge `cursor` plus the
`node` (src/index.js:36-37). -/
structure Edge where
  cursor : String
  node : ResourceRecord
  deriving Repr, DecidableEq, Inhabited

/-- One page of the `files` connection: the edge list (absent models a JSON
response where `data.data.files.edges` is null/undefined, recovered by the
`|| []` at src/index.js:101) and `pageInfo.hasNextPage` (src/index.js:65). -/
structure Page where
  edges : Option (List Edge)
  hasNextPage : Bool
  deriving Repr, DecidableEq, Inhabited

/-- The scripted outcome of one paginated request, covering every branch of
the request code at src/index.js:70-99: the `fetch` promise rejecting
(network failure or the 15s `AbortController` timeout firing), a non-ok HTTP
status, a body that fails to parse as JSON, a parsed body carrying
`data.errors`, or a well-formed page. -/
inductive PageResult where
  | netError (msg : String)
  | httpError (status : Nat) (body : String)
  | badJson (msg : String)
  | gqlErrors
  | ok (page : Page)
  deriving Repr, DecidableEq, Inhabited

/-- The ways `fetchAllFiles` can terminate abnormally.  `network` is the
rethrow at src/index.js:84-86; `graphqlHttp` the throw at src/index.js:90-93;
`badJson` a rejection of `res.json()` at src/index.js:95; `graphqlFailed` the
throw at src/index.js:96-99; `typeError` the implicit crash of
`edges[edges.length - 1].cursor` on an empty edge list (src/index.js:105);
`scriptExhausted` is an artifact of the finite mock script: the loop issued a
request for which the script holds no response. -/
inductive FetchError where
  | network (msg : String)
  | graphqlHttp (status : Nat) (body : String)
  | badJson (msg : String)
  | graphqlFailed
  | typeError
  | scriptExhausted
  deriving Repr, DecidableEq, Inhabited

/-- Observable outcome of one enumeration run: the returned node list or the
propagated error, the cursor variable sent with each issued request in order,
the final value of the `cursor` variable, and the number of completed loop
iterations (the source's `page` counter minus one). -/
structure EnumResult where
  result : Except FetchError (List ResourceRecord)
  requests : List (Option String)
  finalCursor : Option String
  pages : Nat
  deriving Repr

/-- The `while (hasNextPage)` loop of `fetchAllFiles` (src/index.js:29-107)
over a scripted response sequence.  Each iteration records the request cursor,
then either propagates a scripted failure, or appends `edges.map(e => e.node)`
to the accumulator (src/index.js:101-102), reads `hasNextPage`
(src/index.js:104) and updates the cursor per src/index.js:105:
`cursor = hasNextPage ? edges[edges.length - 1].cursor : null`, where the
last-edge access on an empty list crashes with a TypeError. -/
def fetchGo : List PageResult → Option String → List ResourceRecord →
    List (Option String) → Nat → EnumResult
  | [], c, _, reqs, n => ⟨Except.error FetchError.scriptExhausted, reqs ++ [c], c, n⟩
  | r :: rest, c, acc, reqs, n =>
    match r with
    | PageResult.netError m => ⟨Except.error (FetchError.network m), reqs ++ [c], c, n⟩
    | PageResult.httpError s b =>
        ⟨Except.error (FetchError.graphqlHttp s b), reqs ++ [c], c, n⟩
    | PageResult.badJson m => ⟨Except.error (FetchError.badJson m), reqs ++ [c], c, n⟩
    | PageResult.gqlErrors => ⟨Except.error FetchError.graphqlFailed, reqs ++ [c], c, n⟩
    | PageResult.ok p =>
        let edges := p.edges.getD []
        let acc2 := acc ++ edges.map (fun e => e.node)
        if p.hasNextPage then
          match edges.getLast? with
          | some e => fetchGo rest (some e.cursor) acc2 (reqs ++ [c]) (n + 1)
          | none => ⟨Except.error FetchError.typeError, reqs ++ [c], c, n⟩
        else
          ⟨Except.ok acc2, reqs ++ [c], none, n + 1⟩

/-- `fetchAllFiles` (src/index.js:23-110): the loop started with
`cursor = null`, an empty accumulator, and `page = 1`. -/
def fetchAllFiles (script : List PageResult) : EnumResult :=
  fetchGo script none [] [] 0

/-- The nodes contributed by one page, in edge order (src/index.js:102). -/
def pageNodes (p : Page) : List ResourceRecord :=
  (p.edges.getD []).map (fun e => e.node)

/-- The cursor of the last edge of a page, if any: the value assigned to
`cursor` at src/index.js:105 when `hasNextPage` is true. -/
def lastCursor (p : Page) : Option String :=
  ((p.edges.getD []).getLast?).map (fun e => e.cursor)

/-- Result of `resolveFileInfo` (src/index.js:140): the URL-bearing field and
the target subfolder. -/
structure FileInfo where
  url : Option String
  folder : String
  deriving Repr, DecidableEq, Inhabited

/-- `resolveFileInfo` (src/index.js:113-141).  The JS `switch` on
`file.__typename` with `break` in every case is an if-chain; the
fall-through default leaves `url = null`, `folder = "unknown"`. -/
def resolveFileInfo (file : ResourceRecord) : FileInfo :=
  if file.typename = "GenericFile" then ⟨file.url, "generic"⟩
  else if file.typename = "MediaImage" then ⟨file.imageUrl, "images"⟩
  else if file.typename = "Video" then ⟨file.originalSourceUrl, "videos"⟩
  else if file.typename = "ExternalVideo" then ⟨file.embeddedUrl, "external"⟩
  else if file.typename = "Model3d" then ⟨file.originalSourceUrl, "models"⟩
  else ⟨none, "unknown"⟩

/-- `url.split("?")[0]` (src/index.js:155): the prefix of the string before
the first question mark. -/
def stripQuery (s : String) : String :=
  ⟨s.toList.takeWhile (fun c => !(c == '?'))⟩

/-- The suffix after the last path separator of a character list. -/
def afterLastSep (l : List Char) : List Char :=
  (l.reverse.takeWhile (fun c => !(c == '/'))).reverse

/-- Removal of trailing path separators from a character list. -/
def dropTrailingSep (l : List Char) : List Char :=
  (l.reverse.dropWhile (fun c => c == '/')).reverse

/-- Node `path.basename` (POSIX, src/index.js:156): trailing directory
separators are ignored, then the part after the last separator is returned. -/
def basename (s : String) : String :=
  ⟨afterLastSep (dropTrailingSep s.toList)⟩

/-- The local file name derived from a URL (src/index.js:155-156):
`path.basename(url.split("?")[0])`. -/
def fileNameOf (url : String) : String :=
  basename (stripQuery url)

/-- Modelled from the spec: the canonicalization rule as §4.2 step 3 words it,
"the substring after the final path separator, before the first question
mark", with no treatment of trailing separators.  Kept separate from
`fileNameOf` (the code) to compare the two. -/
def specFileName (url : String) : String :=
  ⟨afterLastSep (stripQuery url).toList⟩

/-- The filesystem: an association list from paths to file contents, newest
entry first. -/
abbrev FS := List (String × String)

/-- Content at a path, if a file exists there. -/
def lookupFS (fs : FS) (p : String) : Option String :=
  (fs.find? (fun e => e.1 == p)).map (fun e => e.2)

/-- `fs.existsSync(filePath)` (src/index.js:159). -/
def existsFS (fs : FS) (p : String) : Bool :=
  (lookupFS fs p).isSome

/-- `fs.writeFileSync(filePath, buffer)` (src/index.js:174): the path now
holds the new contents (the new entry shadows any older one). -/
def writeFile (fs : FS) (p c : String) : FS :=
  (p, c) :: fs

/-- Scripted outcome of one content fetch (src/index.js:167): the body of a
successful response, a non-ok response with its `statusText`, or the fetch
promise rejecting (transport exception). -/
inductive ContentResult where
  | ok (body : String)
  | httpErr (statusText : String)
  | exn (msg : String)
  deriving Repr, DecidableEq, Inhabited

/-- Whether a content fetch succeeded. -/
def ContentResult.isOk : ContentResult → Bool
  | ContentResult.ok _ => true
  | _ => false

/-- The pipeline's external world: a deterministic content-fetch oracle and a
write-failure oracle (`fs.writeFileSync` throwing at a given path; a failed
write is modelled as creating no file). -/
structure Env where
  fetch : String → ContentResult
  writeFails : String → Bool

/-- The console/progress output of the pipeline, one constructor per emission
site in src/index.js.  Percentages (`toFixed(1)` rendering) are presentation
only; the lines carry the underlying counters. -/
inductive LogLine where
  | skippedNoUrl (id typename : String)
  | skippedPresent (downloaded total : Nat) (folder fileName : String)
  | saved (downloaded total : Nat) (folder fileName : String)
  | failedDownload (fileName statusText : String)
  | errorDownloading (url msg : String)
  | summary (downloaded total : Nat)
  deriving Repr, DecidableEq, Inhabited

/-- Mutable state of the `downloadFiles` loop: the filesystem, the
`downloaded` counter, a ghost counter of content fetches performed, and the
emitted log. -/
structure PipeState where
  fs : FS
  downloaded : Nat
  fetches : Nat
  log : List LogLine
  deriving Repr, DecidableEq, Inhabited

/-- `path.join(OUTPUT_DIR, folder, fileName)` (src/index.js:157), modelled as
separator concatenation (the folder names are fixed non-empty segments, so no
`path.join` normalization applies). -/
def pathFor (dir : String) (f : ResourceRecord) (u : String) : String :=
  dir ++ "/" ++ (resolveFileInfo f).folder ++ "/" ++ fileNameOf u

/-- One iteration of the `for (const file of files)` loop
(src/index.js:148-182).  Branches, in source order: no URL (src/index.js:150,
JS `!url` is true for null/undefined and for the empty string); target
already exists (src/index.js:159); then the `try` block — fetch rejection and
write failure are caught by the `catch` at src/index.js:179 which logs and
falls through to the next record, a non-ok response is logged at
src/index.js:169 and skipped with `continue`, and a success writes the body
and increments `downloaded`. -/
def processRecord (env : Env) (dir : String) (total : Nat) (st : PipeState)
    (f : ResourceRecord) : PipeState :=
  let info := resolveFileInfo f
  match info.url with
  | none => { st with log := st.log ++ [LogLine.skippedNoUrl f.id f.typename] }
  | some u =>
    if u.isEmpty then
      { st with log := st.log ++ [LogLine.skippedNoUrl f.id f.typename] }
    else
      let fileName := fileNameOf u
      let filePath := pathFor dir f u
      if existsFS st.fs filePath then
        { st with
            downloaded := st.downloaded + 1,
            log := st.log ++
              [LogLine.skippedPresent (st.downloaded + 1) total info.folder fileName] }
      else
        let stF := { st with fetches := st.fetches + 1 }
        match env.fetch u with
        | ContentResult.exn m =>
            { stF with log := stF.log ++ [LogLine.errorDownloading u m] }
        | ContentResult.httpErr statusText =>
            { stF with log := stF.log ++ [LogLine.failedDownload fileName statusText] }
        | ContentResult.ok body =>
            if env.writeFails filePath then
              { stF with log := stF.log ++ [LogLine.errorDownloading u "write failed"] }
            else
              { stF with
                  fs := writeFile stF.fs filePath body,
                  downloaded := stF.downloaded + 1,
                  log := stF.log ++
                    [LogLine.saved (stF.downloaded + 1) total info.folder fileName] }

/-- The record loop of `downloadFiles`, strictly in sequence order. -/
def downloadLoop (env : Env) (dir : String) (total : Nat) :
    List ResourceRecord → PipeState → PipeState
  | [], st => st
  | f :: rest, st => downloadLoop env dir total rest (processRecord env dir total st f)

/-- Initial pipeline state over a starting filesystem: `downloaded = 0`
(src/index.js:145), no fetches performed, empty log. -/
def initState (fs0 : FS) : PipeState :=
  ⟨fs0, 0, 0, []⟩

/-- `downloadFiles` (src/index.js:144-185): `total` is fixed to the sequence
length before the loop (src/index.js:146), the loop runs over every record,
and the final summary line reports `downloaded` and `total`
(src/index.js:184). -/
def downloadFiles (env : Env) (dir : String) (files : List ResourceRecord)
    (fs0 : FS) : PipeState :=
  let total := files.length
  let st := downloadLoop env dir total files (initState fs0)
  { st with log := st.log ++ [LogLine.summary st.downloaded total] }

/-- The URL a record contributes to the download loop: its resolved URL when
present and non-empty (JS truthiness of the `!url` guard), else nothing. -/
def recUrl (f : ResourceRecord) : Option String :=
  match (resolveFileInfo f).url with
  | none => none
  | some u => if u.isEmpty then none else some u

/-- The target path of a record that has a usable URL. -/
def recPath (dir : String) (f : ResourceRecord) : Option String :=
  (recUrl f).map (pathFor dir f)

/-- Number of records of the sequence carrying a usable URL. -/
def countUrls (files : List ResourceRecord) : Nat :=
  files.countP (fun f => (recUrl f).isSome)

/-- Whether the iteration on record `f` from filesystem `fs` increments
`downloaded`: the record has a usable URL and its target either already
exists or its fetch succeeds and the write does not fail. -/
def incRecord (env : Env) (dir : String) (fs : FS) (f : ResourceRecord) : Bool :=
  match recUrl f with
  | none => false
  | some u =>
    let filePath := pathFor dir f u
    existsFS fs filePath ||
      (match env.fetch u with
       | ContentResult.ok _ => !env.writeFails filePath
       | _ => false)

/-- An environment in which every content fetch succeeds and no write
fails: the no-per-item-failure assumption. -/
def envOk (env : Env) : Prop :=
  (∀ u, (env.fetch u).isOk = true) ∧ (∀ p, env.writeFails p = false)

/-- The `err.message` printed by the top-level catch (src/index.js:197) for
each enumeration failure.  `network` and `graphqlHttp` carry the messages
built at src/index.js:85 and src/index.js:92, `graphqlFailed` the literal at
src/index.js:98; the `typeError` message stands for the engine-generated
TypeError text. -/
def errMessage : FetchError → String
  | FetchError.network m => "Network error: " ++ m
  | FetchError.graphqlHttp s b => "GraphQL error " ++ toString s ++ ": " ++ b
  | FetchError.badJson m => m
  | FetchError.graphqlFailed => "Shopify GraphQL query failed"
  | FetchError.typeError => "Cannot read cursor of undefined"
  | FetchError.scriptExhausted => "script exhausted"

/-- Outcome of the whole program: normal completion with the final counters,
or the top-level catch firing with its message. -/
inductive MainOutcome where
  | done (downloaded total : Nat)
  | failed (msg : String)
  deriving Repr, DecidableEq, Inhabited

/-- Observable result of one whole-program run: the outcome, the final
filesystem, and the number of content fetches performed. -/
structure MainResult where
  outcome : MainOutcome
  fs : FS
  contentFetches : Nat
  deriving Repr, DecidableEq, Inhabited

/-- The main IIFE (src/index.js:188-199): run `fetchAllFiles`; any error it
throws reaches the catch, which reports the message and runs nothing else —
in particular `downloadFiles` is never entered and the filesystem is
untouched.  On success the full node list is handed to `downloadFiles`. -/
def mainRun (script : List PageResult) (env : Env) (dir : String) (fs0 : FS) :
    MainResult :=
  match (fetchAllFiles script).result with
  | Except.error e => ⟨MainOutcome.failed (errMessage e), fs0, 0⟩
  | Except.ok files =>
      let st := downloadFiles env dir files fs0
      ⟨MainOutcome.done st.downloaded files.length, st.fs, st.fetches⟩

/-! ## Enumerator theorems -/

/-- Characterization of a fully scripted enumeration: over a script of
well-formed pages whose front pages all report another page and carry at
least one edge and whose final page reports no next page, the loop consumes
every page, returns all nodes in page order, issues exactly one request per
page (the first with a null cursor, each later one with the last-edge cursor
of the previous page), and clears the cursor at the end. -/
theorem fetchGo_scripted (front : List Page) (plast : Page)
    (hlast : plast.hasNextPage = false) :
    ∀ (_ : ∀ p ∈ front, p.hasNextPage = true ∧ p.edges.getD [] ≠ []),
      ∀ c acc reqs n,
        fetchGo ((front ++ [plast]).map PageResult.ok) c acc reqs n =
          ⟨Except.ok (acc ++ (front ++ [plast]).flatMap pageNodes),
           reqs ++ (c :: front.map lastCursor), none, n + (front.length + 1)⟩ := by
  induction front with
  | nil =>
    intro _ c acc reqs n
    simp [fetchGo, hlast, pageNodes]
  | cons p front ih =>
    intro hfront c acc reqs n
    obtain ⟨hp, hne⟩ := hfront p (by simp)
    obtain ⟨e, he⟩ := Option.isSome_iff_exists.mp (List.getLast?_isSome.mpr hne)
    have hfront2 : ∀ q ∈ front, q.hasNextPage = true ∧ q.edges.getD [] ≠ [] :=
      fun q hq => hfront q (List.mem_cons_of_mem p hq)
    simp only [List.cons_append, List.map_cons, fetchGo, hp, he, if_true, List.append_eq]
    rw [ih hfront2 (some e.cursor) (acc ++ (p.edges.getD []).map (fun e => e.node))
        (reqs ++ [c]) (n + 1)]
    simp [pageNodes, lastCursor, he, List.append_assoc]
    omega

/-- Sample node used by concrete witnesses. -/
def sampleRecord (k i : String) : ResourceRecord :=
  ⟨k, i, "2024-01-01", some "https://cdn.example.com/path/a.zip", none, none, none⟩

/-- C1: for every finite scripted sequence of pages whose last page reports
`hasNextPage = false` (every earlier page reporting `true`, each such page
carrying at least one edge — the implicit precondition of the last-edge
cursor read), `fetchAllFiles` terminates exactly after consuming that page:
it performs one loop iteration per scripted page, never stopping while a page
reports `true`, and returns the nodes of all pages' edges concatenated in
page order. -/
theorem fetchAllFiles_terminates_exactly (front : List Page) (plast : Page)
    (hfront : ∀ p ∈ front, p.hasNextPage = true ∧ p.edges.getD [] ≠ [])
    (hlast : plast.hasNextPage = false) :
    (fetchAllFiles ((front ++ [plast]).map PageResult.ok)).result =
        Except.ok ((front ++ [plast]).flatMap pageNodes) ∧
    (fetchAllFiles ((front ++ [plast]).map PageResult.ok)).pages =
        front.length + 1 := by
  unfold fetchAllFiles
  rw [fetchGo_scripted front plast hlast hfront none [] [] 0]
  simp

/-- Witness for C1 at a concrete two-page script. -/
theorem fetchAllFiles_terminates_exactly_witness :
    (fetchAllFiles [PageResult.ok ⟨some [⟨"cur1", sampleRecord "GenericFile" "g1"⟩], true⟩,
        PageResult.ok ⟨some [⟨"cur2", sampleRecord "MediaImage" "m1"⟩], false⟩]).result =
      Except.ok [sampleRecord "GenericFile" "g1", sampleRecord "MediaImage" "m1"] ∧
    (fetchAllFiles [PageResult.ok ⟨some [⟨"cur1", sampleRecord "GenericFile" "g1"⟩], true⟩,
        PageResult.ok ⟨some [⟨"cur2", sampleRecord "MediaImage" "m1"⟩], false⟩]).pages = 2 :=
  fetchAllFiles_terminates_exactly
    [⟨some [⟨"cur1", sampleRecord "GenericFile" "g1"⟩], true⟩]
    ⟨some [⟨"cur2", sampleRecord "MediaImage" "m1"⟩], false⟩
    (by decide) rfl

/-- C4: per-edge cursor discipline.  Over a well-formed scripted run, the
request sequence is exactly: a null cursor first, then, after each page that
reported `hasNextPage = true`, the cursor attached to the last edge of that
page (never a page-level cursor); once a page reports `false` the cursor
variable is cleared to null and no further request is issued. -/
theorem fetchAllFiles_cursor_discipline (front : List Page) (plast : Page)
    (hfront : ∀ p ∈ front, p.hasNextPage = true ∧ p.edges.getD [] ≠ [])
    (hlast : plast.hasNextPage = false) :
    (fetchAllFiles ((front ++ [plast]).map PageResult.ok)).requests =
        none :: front.map lastCursor ∧
    (∀ p ∈ front, ∃ e, (p.edges.getD []).getLast? = some e ∧
        lastCursor p = some e.cursor) ∧
    (fetchAllFiles ((front ++ [plast]).map PageResult.ok)).finalCursor = none ∧
    (fetchAllFiles ((front ++ [plast]).map PageResult.ok)).requests.length =
        front.length + 1 := by
  unfold fetchAllFiles
  rw [fetchGo_scripted front plast hlast hfront none [] [] 0]
  refine ⟨by simp, ?_, rfl, by simp⟩
  intro p hp
  obtain ⟨-, hne⟩ := hfront p hp
  obtain ⟨e, he⟩ := Option.isSome_iff_exists.mp (List.getLast?_isSome.mpr hne)
  exact ⟨e, he, by simp [lastCursor, he]⟩

/-- Witness for C4 at a concrete two-page script. -/
theorem fetchAllFiles_cursor_discipline_witness :
    (fetchAllFiles [PageResult.ok ⟨some [⟨"cur1", sampleRecord "GenericFile" "g1"⟩], true⟩,
        PageResult.ok ⟨some [⟨"cur2", sampleRecord "MediaImage" "m1"⟩], false⟩]).requests =
      [none, some "cur1"] ∧
    (fetchAllFiles [PageResult.ok ⟨some [⟨"cur1", sampleRecord "GenericFile" "g1"⟩], true⟩,
        PageResult.ok ⟨some [⟨"cur2", sampleRecord "MediaImage" "m1"⟩], false⟩]).finalCursor =
      none := by
  have h := fetchAllFiles_cursor_discipline
    [⟨some [⟨"cur1", sampleRecord "GenericFile" "g1"⟩], true⟩]
    ⟨some [⟨"cur2", sampleRecord "MediaImage" "m1"⟩], false⟩
    (by decide) rfl
  exact ⟨h.1, h.2.2.1⟩

/-- Under the precondition that every page reporting another page carries at
least one edge, the last-edge cursor read never crashes, whatever the rest of
the script holds. -/
theorem fetchGo_safe (script : List PageResult)
    (h : ∀ p, PageResult.ok p ∈ script → p.hasNextPage = true → p.edges.getD [] ≠ []) :
    ∀ c acc reqs n,
      (fetchGo script c acc reqs n).result ≠ Except.error FetchError.typeError := by
  induction script with
  | nil => intro c acc reqs n; simp [fetchGo]
  | cons r rest ih =>
    intro c acc reqs n
    have hrest : ∀ p, PageResult.ok p ∈ rest → p.hasNextPage = true →
        p.edges.getD [] ≠ [] :=
      fun p hp => h p (List.mem_cons_of_mem r hp)
    cases r with
    | netError m => simp [fetchGo]
    | httpError s b => simp [fetchGo]
    | badJson m => simp [fetchGo]
    | gqlErrors => simp [fetchGo]
    | ok p =>
      by_cases hn : p.hasNextPage = true
      · have hne := h p (List.mem_cons_self _ _) hn
        obtain ⟨e, he⟩ := Option.isSome_iff_exists.mp (List.getLast?_isSome.mpr hne)
        simp only [fetchGo, hn, if_true, he]
        exact ih hrest _ _ _ _
      · simp [fetchGo, hn]

/-- C10: the enumerator reads the cursor of the last edge of a page only when
that page reports `hasNextPage = true`, so whenever every page reporting
`true` carries at least one edge, the last-edge access never fails; and on a
page reporting `true` with an empty — or absent — edge list, `fetchAllFiles`
throws (a TypeError from `edges[edges.length - 1].cursor`) instead of
returning. -/
theorem fetchAllFiles_cursor_precondition :
    (∀ script : List PageResult,
      (∀ p, PageResult.ok p ∈ script → p.hasNextPage = true → p.edges.getD [] ≠ []) →
      (fetchAllFiles script).result ≠ Except.error FetchError.typeError) ∧
    (fetchAllFiles [PageResult.ok ⟨some [], true⟩]).result =
        Except.error FetchError.typeError ∧
    (fetchAllFiles [PageResult.ok ⟨none, true⟩]).result =
        Except.error FetchError.typeError := by
  exact ⟨fun script h => fetchGo_safe script h none [] [] 0, rfl, rfl⟩

/-- Witness for C10 at a concrete one-page script satisfying the
precondition. -/
theorem fetchAllFiles_cursor_precondition_witness :
    (fetchAllFiles [PageResult.ok ⟨some [⟨"cur1", sampleRecord "Video" "v1"⟩], false⟩]).result ≠
      Except.error FetchError.typeError :=
  fetchAllFiles_cursor_precondition.1
    [PageResult.ok ⟨some [⟨"cur1", sampleRecord "Video" "v1"⟩], false⟩]
    (by intro p hp htrue; simp at hp; subst hp; simp at htrue)

/-- C7: every enumeration-level failure — transport error or timeout,
non-success status, malformed response body, or an application-level error
list — propagates to the top level: the program ends in the failed outcome
with a human-readable message, the pipeline is never entered (zero content
fetches) and the filesystem is untouched, so no partial enumeration results
are consumed.  The remaining conjuncts tie each scripted failure cause to the
error `fetchAllFiles` propagates. -/
theorem mainRun_aborts_on_enumeration_failure :
    (∀ (script : List PageResult) (env : Env) (dir : String) (fs0 : FS) (e : FetchError),
      (fetchAllFiles script).result = Except.error e →
      mainRun script env dir fs0 = ⟨MainOutcome.failed (errMessage e), fs0, 0⟩) ∧
    (∀ (m : String) (rest : List PageResult),
      (fetchAllFiles (PageResult.netError m :: rest)).result =
        Except.error (FetchError.network m)) ∧
    (∀ (s : Nat) (b : String) (rest : List PageResult),
      (fetchAllFiles (PageResult.httpError s b :: rest)).result =
        Except.error (FetchError.graphqlHttp s b)) ∧
    (∀ (m : String) (rest : List PageResult),
      (fetchAllFiles (PageResult.badJson m :: rest)).result =
        Except.error (FetchError.badJson m)) ∧
    (∀ rest : List PageResult,
      (fetchAllFiles (PageResult.gqlErrors :: rest)).result =
        Except.error FetchError.graphqlFailed) := by
  refine ⟨?_, ?_, ?_, ?_, ?_⟩
  · intro script env dir fs0 e h
    simp [mainRun, h]
  · intro m rest; rfl
  · intro s b rest; rfl
  · intro m rest; rfl
  · intro rest; rfl

/-- Witness for C7 at a concrete failing script. -/
theorem mainRun_aborts_on_enumeration_failure_witness :
    mainRun [PageResult.netError "connect ECONNREFUSED"]
        ⟨fun _ => ContentResult.ok "", fun _ => false⟩ "out" [] =
      ⟨MainOutcome.failed (errMessage (FetchError.network "connect ECONNREFUSED")), [], 0⟩ :=
  mainRun_aborts_on_enumeration_failure.1 [PageResult.netError "connect ECONNREFUSED"]
    ⟨fun _ => ContentResult.ok "", fun _ => false⟩ "out" []
    (FetchError.network "connect ECONNREFUSED") rfl

/-! ## Classification and URL canonicalization -/

/-- C3: classification totality and completeness.  Each of the five kinds the
query declares maps to its documented folder and URL-bearing field
(`Model3d` being the on-wire spelling the query selects for the 3D-model
kind); every other `__typename` value falls through to `folder = "unknown"`
with no URL.  `resolveFileInfo` is a total function, so no kind value can
make it crash. -/
theorem resolveFileInfo_classification (f : ResourceRecord) :
    (f.typename = "GenericFile" → resolveFileInfo f = ⟨f.url, "generic"⟩) ∧
    (f.typename = "MediaImage" → resolveFileInfo f = ⟨f.imageUrl, "images"⟩) ∧
    (f.typename = "Video" → resolveFileInfo f = ⟨f.originalSourceUrl, "videos"⟩) ∧
    (f.typename = "ExternalVideo" → resolveFileInfo f = ⟨f.embeddedUrl, "external"⟩) ∧
    (f.typename = "Model3d" → resolveFileInfo f = ⟨f.originalSourceUrl, "models"⟩) ∧
    (f.typename ∉ ["GenericFile", "MediaImage", "Video", "ExternalVideo", "Model3d"] →
      resolveFileInfo f = ⟨none, "unknown"⟩) := by
  refine ⟨fun h => by simp [resolveFileInfo, h],
          fun h => by simp [resolveFileInfo, h],
          fun h => by simp [resolveFileInfo, h],
          fun h => by simp [resolveFileInfo, h],
          fun h => by simp [resolveFileInfo, h], ?_⟩
  intro h
  simp only [List.mem_cons, List.mem_singleton, not_or] at h
  obtain ⟨h1, h2, h3, h4, h5⟩ := h
  simp [resolveFileInfo, h1, h2, h3, h4, h5]

/-- Witness for C3: one declared kind and one unrecognized kind. -/
theorem resolveFileInfo_classification_witness :
    resolveFileInfo (sampleRecord "GenericFile" "g1") =
      ⟨some "https://cdn.example.com/path/a.zip", "generic"⟩ ∧
    resolveFileInfo (sampleRecord "Frobnicator" "x1") = ⟨none, "unknown"⟩ :=
  ⟨(resolveFileInfo_classification (sampleRecord "GenericFile" "g1")).1 rfl,
   (resolveFileInfo_classification (sampleRecord "Frobnicator" "x1")).2.2.2.2.2 (by decide)⟩

/-- A list whose last element is not a separator is unchanged by trailing
separator removal. -/
theorem dropTrailingSep_eq_self (l : List Char) (h : l.getLast? ≠ some '/') :
    dropTrailingSep l = l := by
  unfold dropTrailingSep
  rw [← List.head?_reverse] at h
  cases hr : l.reverse with
  | nil =>
    have hl : l = [] := by simpa using congrArg List.reverse hr
    simp [hl]
  | cons c t =>
    rw [hr] at h
    have hc : (c == '/') = false := by
      simp only [List.head?] at h
      simp only [beq_eq_false_iff_ne, ne_eq]
      intro hEq
      exact h (by simp [hEq])
    rw [List.dropWhile_cons, hc]
    simp only [Bool.false_eq_true, if_false]
    have := congrArg List.reverse hr
    simpa using this.symm

/-- When the query-stripped string does not end in a separator, the code's
`path.basename` agrees with plain last-segment extraction. -/
theorem basename_eq_afterLastSep (s : String) (h : s.toList.getLast? ≠ some '/') :
    basename s = ⟨afterLastSep s.toList⟩ := by
  unfold basename
  rw [dropTrailingSep_eq_self _ h]

/-- C9 counterexample: on a URL whose query-stripped part ends in a path
separator, the code (`path.basename` ignores trailing separators) does not
return the substring after the final path separator, which is empty here. -/
theorem fileNameOf_counterexample :
    fileNameOf "https://cdn.example.com/path/?v=123" = "path" ∧
    specFileName "https://cdn.example.com/path/?v=123" = "" ∧
    fileNameOf "https://cdn.example.com/path/?v=123" ≠
      specFileName "https://cdn.example.com/path/?v=123" := by
  refine ⟨?_, ?_, ?_⟩ <;> decide

/-- C9 (amended): for every resolved URL whose query-stripped part does not
end in a path separator, the local file name is the substring after the final
path separator, before the first question mark (when it does end in
separators, `path.basename` first ignores them); in particular
`https://cdn.example.com/path/image.png?v=123` yields `image.png`. -/
theorem fileNameOf_canonicalization :
    (∀ url : String, (stripQuery url).toList.getLast? ≠ some '/' →
      fileNameOf url = specFileName url) ∧
    fileNameOf "https://cdn.example.com/path/image.png?v=123" = "image.png" := by
  constructor
  · intro url h
    unfold fileNameOf specFileName
    exact basename_eq_afterLastSep _ h
  · decide

/-- Witness for C9 (amended) at a concrete URL. -/
theorem fileNameOf_canonicalization_witness :
    fileNameOf "https://x/y.mp4?sig=1" = specFileName "https://x/y.mp4?sig=1" :=
  fileNameOf_canonicalization.1 "https://x/y.mp4?sig=1" (by decide)

/-! ## Pipeline lemmas -/

/-- Writing at a fresh path leaves the content seen at any other path
unchanged. -/
theorem lookupFS_write_ne (fs : FS) (p c q : String) (h : p ≠ q) :
    lookupFS (writeFile fs p c) q = lookupFS fs q := by
  simp [lookupFS, writeFile, List.find?_cons, h]

/-- A just-written path exists. -/
theorem existsFS_write_self (fs : FS) (p c : String) :
    existsFS (writeFile fs p c) p = true := by
  simp [existsFS, lookupFS, writeFile, List.find?_cons]

/-- A path that does not exist holds no content. -/
theorem lookupFS_of_not_exists (fs : FS) (p : String)
    (h : existsFS fs p = false) : lookupFS fs p = none := by
  unfold existsFS at h
  cases hl : lookupFS fs p with
  | none => rfl
  | some v => rw [hl] at h; simp at h

/-- A usable resolved URL: the record's URL field holds `u`, which is
non-empty. -/
theorem recUrl_eq_some (f : ResourceRecord) (u : String) (h : recUrl f = some u) :
    (resolveFileInfo f).url = some u ∧ u.isEmpty = false := by
  unfold recUrl at h
  cases hu : (resolveFileInfo f).url with
  | none => rw [hu] at h; exact absurd h (by simp)
  | some w =>
    rw [hu] at h
    by_cases hw : w.isEmpty = true
    · simp [hw] at h
    · simp only [hw, if_false, Bool.false_eq_true, Option.some.injEq] at h
      subst h
      exact ⟨rfl, by simpa using hw⟩

/-- Iteration on a record with no usable URL: only a diagnostic is logged
(src/index.js:150-153). -/
theorem processRecord_noUrl (env : Env) (dir : String) (total : Nat)
    (st : PipeState) (f : ResourceRecord) (h : recUrl f = none) :
    processRecord env dir total st f =
      { st with log := st.log ++ [LogLine.skippedNoUrl f.id f.typename] } := by
  unfold recUrl at h
  unfold processRecord
  cases hu : (resolveFileInfo f).url with
  | none => simp [hu]
  | some w =>
    rw [hu] at h
    by_cases hw : w.isEmpty = true
    · simp [hu, hw]
    · simp [hw] at h

/-- Iteration on a record whose target already exists: `downloaded` is
incremented, nothing is fetched or written (src/index.js:159-164). -/
theorem processRecord_present (env : Env) (dir : String) (total : Nat)
    (st : PipeState) (f : ResourceRecord) (u : String) (h : recUrl f = some u)
    (hex : existsFS st.fs (pathFor dir f u) = true) :
    processRecord env dir total st f =
      { st with
          downloaded := st.downloaded + 1,
          log := st.log ++ [LogLine.skippedPresent (st.downloaded + 1) total
            (resolveFileInfo f).folder (fileNameOf u)] } := by
  obtain ⟨hu, hemp⟩ := recUrl_eq_some f u h
  unfold processRecord
  simp [hu, hemp, hex]

/-- Iteration whose content fetch raises a transport exception: the fetch is
counted, the catch logs a diagnostic, nothing else changes
(src/index.js:179-181). -/
theorem processRecord_exn (env : Env) (dir : String) (total : Nat)
    (st : PipeState) (f : ResourceRecord) (u m : String) (h : recUrl f = some u)
    (hex : existsFS st.fs (pathFor dir f u) = false)
    (hf : env.fetch u = ContentResult.exn m) :
    processRecord env dir total st f =
      { st with
          fetches := st.fetches + 1,
          log := st.log ++ [LogLine.errorDownloading u m] } := by
  obtain ⟨hu, hemp⟩ := recUrl_eq_some f u h
  unfold processRecord
  simp [hu, hemp, hex, hf]

/-- Iteration whose content fetch returns a non-ok status: the item is logged
and skipped (src/index.js:168-171). -/
theorem processRecord_httpErr (env : Env) (dir : String) (total : Nat)
    (st : PipeState) (f : ResourceRecord) (u s : String) (h : recUrl f = some u)
    (hex : existsFS st.fs (pathFor dir f u) = false)
    (hf : env.fetch u = ContentResult.httpErr s) :
    processRecord env dir total st f =
      { st with
          fetches := st.fetches + 1,
          log := st.log ++ [LogLine.failedDownload (fileNameOf u) s] } := by
  obtain ⟨hu, hemp⟩ := recUrl_eq_some f u h
  unfold processRecord
  simp [hu, hemp, hex, hf]

/-- Iteration whose write throws: caught like a fetch exception
(src/index.js:179-181); no file is produced. -/
theorem processRecord_writeFail (env : Env) (dir : String) (total : Nat)
    (st : PipeState) (f : ResourceRecord) (u body : String) (h : recUrl f = some u)
    (hex : existsFS st.fs (pathFor dir f u) = false)
    (hf : env.fetch u = ContentResult.ok body)
    (hw : env.writeFails (pathFor dir f u) = true) :
    processRecord env dir total st f =
      { st with
          fetches := st.fetches + 1,
          log := st.log ++ [LogLine.errorDownloading u "write failed"] } := by
  obtain ⟨hu, hemp⟩ := recUrl_eq_some f u h
  unfold processRecord
  simp [hu, hemp, hex, hf, hw]

/-- Successful iteration: fetch, write to the target path, increment
`downloaded` (src/index.js:166-178). -/
theorem processRecord_writeOk (env : Env) (dir : String) (total : Nat)
    (st : PipeState) (f : ResourceRecord) (u body : String) (h : recUrl f = some u)
    (hex : existsFS st.fs (pathFor dir f u) = false)
    (hf : env.fetch u = ContentResult.ok body)
    (hw : env.writeFails (pathFor dir f u) = false) :
    processRecord env dir total st f =
      { st with
          fs := writeFile st.fs (pathFor dir f u) body,
          downloaded := st.downloaded + 1,
          fetches := st.fetches + 1,
          log := st.log ++ [LogLine.saved (st.downloaded + 1) total
            (resolveFileInfo f).folder (fileNameOf u)] } := by
  obtain ⟨hu, hemp⟩ := recUrl_eq_some f u h
  unfold processRecord
  simp [hu, hemp, hex, hf, hw]

/-- One pipeline iteration preserves the content of every pre-existing file:
the only write happens on the branch where the existence check at
src/index.js:159 just returned false. -/
theorem processRecord_lookup (env : Env) (dir : String) (total : Nat)
    (st : PipeState) (f : ResourceRecord) (q v : String)
    (h : lookupFS st.fs q = some v) :
    lookupFS (processRecord env dir total st f).fs q = some v := by
  cases hru : recUrl f with
  | none => rw [processRecord_noUrl env dir total st f hru]; exact h
  | some u =>
    cases hex : existsFS st.fs (pathFor dir f u) with
    | true => rw [processRecord_present env dir total st f u hru hex]; exact h
    | false =>
      cases hf : env.fetch u with
      | exn m => rw [processRecord_exn env dir total st f u m hru hex hf]; exact h
      | httpErr s => rw [processRecord_httpErr env dir total st f u s hru hex hf]; exact h
      | ok body =>
        cases hw : env.writeFails (pathFor dir f u) with
        | true => rw [processRecord_writeFail env dir total st f u body hru hex hf hw]; exact h
        | false =>
          rw [processRecord_writeOk env dir total st f u body hru hex hf hw]
          have hne : pathFor dir f u ≠ q := by
            intro hEq
            rw [hEq] at hex
            rw [lookupFS_of_not_exists st.fs q hex] at h
            exact Option.noConfusion h
          exact (lookupFS_write_ne st.fs (pathFor dir f u) body q hne).trans h

/-- The whole loop preserves the content of every pre-existing file. -/
theorem downloadLoop_lookup (env : Env) (dir : String) (total : Nat)
    (files : List ResourceRecord) :
    ∀ (st : PipeState) (q v : String), lookupFS st.fs q = some v →
      lookupFS (downloadLoop env dir total files st).fs q = some v := by
  induction files with
  | nil => intro st q v h; exact h
  | cons f rest ih =>
    intro st q v h
    exact ih _ _ _ (processRecord_lookup env dir total st f q v h)

/-- An existing path survives the whole loop. -/
theorem downloadLoop_existsFS (env : Env) (dir : String) (total : Nat)
    (files : List ResourceRecord) (st : PipeState) (p : String)
    (h : existsFS st.fs p = true) :
    existsFS (downloadLoop env dir total files st).fs p = true := by
  unfold existsFS at h ⊢
  obtain ⟨v, hv⟩ := Option.isSome_iff_exists.mp h
  rw [downloadLoop_lookup env dir total files st p v hv]
  rfl

/-- C8: append-only frame property.  Every file present in the output tree
before the run holds exactly the same content afterwards: a write occurs only
at a path for which the existence check just returned false, so
`downloadFiles` never overwrites or deletes a pre-existing file. -/
theorem downloadFiles_append_only (env : Env) (dir : String)
    (files : List ResourceRecord) (fs0 : FS) (q v : String)
    (h : lookupFS fs0 q = some v) :
    lookupFS (downloadFiles env dir files fs0).fs q = some v := by
  simp only [downloadFiles]
  exact downloadLoop_lookup env dir files.length files (initState fs0) q v h

/-- Witness for C8: a pre-existing file at the very path a record targets
keeps its old content (the fetched content is not written over it). -/
theorem downloadFiles_append_only_witness :
    lookupFS (downloadFiles ⟨fun _ => ContentResult.ok "NEW", fun _ => false⟩ "out"
        [sampleRecord "GenericFile" "g1"]
        [("out/generic/a.zip", "OLD")]).fs "out/generic/a.zip" = some "OLD" :=
  downloadFiles_append_only ⟨fun _ => ContentResult.ok "NEW", fun _ => false⟩ "out"
    [sampleRecord "GenericFile" "g1"] [("out/generic/a.zip", "OLD")]
    "out/generic/a.zip" "OLD" rfl

/-- The increment discipline of one iteration: `downloaded` grows by exactly
one when the record is already present or fetched-and-written, and by zero
otherwise. -/
theorem processRecord_downloaded (env : Env) (dir : String) (total : Nat)
    (st : PipeState) (f : ResourceRecord) :
    (processRecord env dir total st f).downloaded =
      st.downloaded + (if incRecord env dir st.fs f then 1 else 0) := by
  cases hru : recUrl f with
  | none =>
    rw [processRecord_noUrl env dir total st f hru]
    simp [incRecord, hru]
  | some u =>
    cases hex : existsFS st.fs (pathFor dir f u) with
    | true =>
      rw [processRecord_present env dir total st f u hru hex]
      simp [incRecord, hru, hex]
    | false =>
      cases hf : env.fetch u with
      | exn m =>
        rw [processRecord_exn env dir total st f u m hru hex hf]
        simp [incRecord, hru, hex, hf]
      | httpErr s =>
        rw [processRecord_httpErr env dir total st f u s hru hex hf]
        simp [incRecord, hru, hex, hf]
      | ok body =>
        cases hw : env.writeFails (pathFor dir f u) with
        | true =>
          rw [processRecord_writeFail env dir total st f u body hru hex hf hw]
          simp [incRecord, hru, hex, hf, hw]
        | false =>
          rw [processRecord_writeOk env dir total st f u body hru hex hf hw]
          simp [incRecord, hru, hex, hf, hw]

/-- `downloaded` grows by at most one per record. -/
theorem downloadLoop_downloaded_le (env : Env) (dir : String) (total : Nat) :
    ∀ (files : List ResourceRecord) (st : PipeState),
      (downloadLoop env dir total files st).downloaded ≤ st.downloaded + files.length := by
  intro files
  induction files with
  | nil => intro st; simp [downloadLoop]
  | cons f rest ih =>
    intro st
    have h1 := processRecord_downloaded env dir total st f
    have h2 := ih (processRecord env dir total st f)
    simp only [downloadLoop, List.length_cons]
    cases hinc : incRecord env dir st.fs f <;> simp [hinc] at h1 <;> omega

/-- C6: progress-counter invariant.  `total` is fixed to the input length
before the loop; `downloaded` starts at zero and is incremented exactly once
per record that is already present at its target or successfully fetched and
written — never for a no-URL or failed record — so it stays bounded by
`total` at every step of the run, and the final summary line reports exactly
the final `downloaded` against the input length (which it may undershoot). -/
theorem downloadFiles_counters (env : Env) (dir : String)
    (files : List ResourceRecord) (fs0 : FS) :
    (downloadFiles env dir files fs0).downloaded ≤ files.length ∧
    (∀ (total : Nat) (st : PipeState) (f : ResourceRecord),
      (processRecord env dir total st f).downloaded =
        st.downloaded + (if incRecord env dir st.fs f then 1 else 0)) ∧
    (downloadFiles env dir files fs0).log.getLast? =
      some (LogLine.summary (downloadFiles env dir files fs0).downloaded files.length) ∧
    (∀ pre suf, files = pre ++ suf →
      (downloadLoop env dir files.length pre (initState fs0)).downloaded ≤
        files.length) := by
  refine ⟨?_, fun total st f => processRecord_downloaded env dir total st f, ?_, ?_⟩
  · have h := downloadLoop_downloaded_le env dir files.length files (initState fs0)
    simpa [downloadFiles, initState] using h
  · simp [downloadFiles, List.getLast?_concat]
  · intro pre suf hsplit
    have h := downloadLoop_downloaded_le env dir files.length pre (initState fs0)
    have hle : pre.length ≤ files.length := by subst hsplit; simp
    have h0 : (initState fs0).downloaded = 0 := rfl
    omega

/-- Witness for C6 at a concrete two-record run. -/
theorem downloadFiles_counters_witness :
    (downloadFiles ⟨fun _ => ContentResult.ok "payload", fun _ => false⟩ "out"
        [sampleRecord "GenericFile" "g1", sampleRecord "MediaImage" "m1"] []).downloaded ≤ 2 ∧
    (downloadLoop ⟨fun _ => ContentResult.ok "payload", fun _ => false⟩ "out" 2
        [sampleRecord "GenericFile" "g1"] (initState [])).downloaded ≤ 2 := by
  have h := downloadFiles_counters ⟨fun _ => ContentResult.ok "payload", fun _ => false⟩
    "out" [sampleRecord "GenericFile" "g1", sampleRecord "MediaImage" "m1"] []
  exact ⟨h.1, h.2.2.2 [sampleRecord "GenericFile" "g1"] [sampleRecord "MediaImage" "m1"] rfl⟩

/-- C5: per-item failure isolation.  A failing record — missing URL, non-ok
content status, transport exception during fetch, or write error — leaves
`downloaded` and the filesystem untouched, appends exactly one diagnostic
line, and the loop proceeds to the remaining records unconditionally, so no
per-item exception ever escapes `downloadFiles` (whose embedding is a total
function over every input sequence). -/
theorem downloadFiles_isolates_failures (env : Env) (dir : String) (total : Nat)
    (st : PipeState) (f : ResourceRecord)
    (hfail : incRecord env dir st.fs f = false) :
    (processRecord env dir total st f).downloaded = st.downloaded ∧
    (processRecord env dir total st f).fs = st.fs ∧
    (∃ d, (processRecord env dir total st f).log = st.log ++ [d]) ∧
    (∀ rest, downloadLoop env dir total (f :: rest) st =
      downloadLoop env dir total rest (processRecord env dir total st f)) := by
  have hchar : ∃ d k, processRecord env dir total st f =
      { st with fetches := k, log := st.log ++ [d] } := by
    cases hru : recUrl f with
    | none =>
      exact ⟨_, st.fetches, by rw [processRecord_noUrl env dir total st f hru]⟩
    | some u =>
      cases hex : existsFS st.fs (pathFor dir f u) with
      | true =>
        exfalso
        have : incRecord env dir st.fs f = true := by simp [incRecord, hru, hex]
        rw [this] at hfail
        exact Bool.noConfusion hfail
      | false =>
        cases hf : env.fetch u with
        | exn m =>
          exact ⟨_, st.fetches + 1, by rw [processRecord_exn env dir total st f u m hru hex hf]⟩
        | httpErr s =>
          exact ⟨_, st.fetches + 1,
            by rw [processRecord_httpErr env dir total st f u s hru hex hf]⟩
        | ok body =>
          cases hw : env.writeFails (pathFor dir f u) with
          | false =>
            exfalso
            have : incRecord env dir st.fs f = true := by simp [incRecord, hru, hex, hf, hw]
            rw [this] at hfail
            exact Bool.noConfusion hfail
          | true =>
            exact ⟨_, st.fetches + 1,
              by rw [processRecord_writeFail env dir total st f u body hru hex hf hw]⟩
  obtain ⟨d, k, hch⟩ := hchar
  exact ⟨by rw [hch], by rw [hch], ⟨d, by rw [hch]⟩, fun rest => rfl⟩

/-- Witness for C5: a record with no usable URL in a concrete state. -/
theorem downloadFiles_isolates_failures_witness :
    (processRecord ⟨fun _ => ContentResult.ok "payload", fun _ => false⟩ "out" 1
        (initState []) (sampleRecord "MediaImage" "m1")).downloaded = 0 ∧
    (processRecord ⟨fun _ => ContentResult.ok "payload", fun _ => false⟩ "out" 1
        (initState []) (sampleRecord "MediaImage" "m1")).fs = [] := by
  have h := downloadFiles_isolates_failures
    ⟨fun _ => ContentResult.ok "payload", fun _ => false⟩ "out" 1
    (initState []) (sampleRecord "MediaImage" "m1") (by decide)
  exact ⟨h.1, h.2.1⟩

/-- First-run characterization under a failure-free environment: every
record with a usable URL ends with its target present, and `downloaded`
counts exactly the usable-URL records. -/
theorem downloadLoop_envOk (env : Env) (hok : envOk env) (dir : String) (total : Nat) :
    ∀ (files : List ResourceRecord) (st : PipeState),
      (downloadLoop env dir total files st).downloaded = st.downloaded + countUrls files ∧
      ∀ f ∈ files, ∀ p, recPath dir f = some p →
        existsFS (downloadLoop env dir total files st).fs p = true := by
  intro files
  induction files with
  | nil =>
    intro st
    refine ⟨by simp [downloadLoop, countUrls], ?_⟩
    intro f hf
    exact absurd hf (List.not_mem_nil f)
  | cons f rest ih =>
    intro st
    simp only [downloadLoop]
    cases hru : recUrl f with
    | none =>
      rw [processRecord_noUrl env dir total st f hru]
      obtain ⟨ihd, ihm⟩ := ih { st with log := st.log ++ [LogLine.skippedNoUrl f.id f.typename] }
      refine ⟨by rw [ihd]; simp [countUrls, List.countP_cons, hru], ?_⟩
      intro g hg p hp
      rcases List.mem_cons.mp hg with hgf | hgr
      · rw [hgf, recPath, hru] at hp
        exact absurd hp (by simp)
      · exact ihm g hgr p hp
    | some u =>
      have hpathf : recPath dir f = some (pathFor dir f u) := by simp [recPath, hru]
      cases hex : existsFS st.fs (pathFor dir f u) with
      | true =>
        rw [processRecord_present env dir total st f u hru hex]
        obtain ⟨ihd, ihm⟩ := ih { st with
          downloaded := st.downloaded + 1,
          log := st.log ++ [LogLine.skippedPresent (st.downloaded + 1) total
            (resolveFileInfo f).folder (fileNameOf u)] }
        refine ⟨?_, ?_⟩
        · rw [ihd]; simp [countUrls, List.countP_cons, hru]; omega
        · intro g hg p hp
          rcases List.mem_cons.mp hg with hgf | hgr
          · rw [hgf, hpathf] at hp
            obtain rfl := Option.some.inj hp
            exact downloadLoop_existsFS env dir total rest _ _ (by simpa using hex)
          · exact ihm g hgr p hp
      | false =>
        have hfok := hok.1 u
        cases hf : env.fetch u with
        | exn m => rw [hf] at hfok; exact absurd hfok (by simp [ContentResult.isOk])
        | httpErr s => rw [hf] at hfok; exact absurd hfok (by simp [ContentResult.isOk])
        | ok body =>
          have hw := hok.2 (pathFor dir f u)
          rw [processRecord_writeOk env dir total st f u body hru hex hf hw]
          obtain ⟨ihd, ihm⟩ := ih { st with
            fs := writeFile st.fs (pathFor dir f u) body,
            downloaded := st.downloaded + 1,
            fetches := st.fetches + 1,
            log := st.log ++ [LogLine.saved (st.downloaded + 1) total
              (resolveFileInfo f).folder (fileNameOf u)] }
          refine ⟨?_, ?_⟩
          · rw [ihd]; simp [countUrls, List.countP_cons, hru]; omega
          · intro g hg p hp
            rcases List.mem_cons.mp hg with hgf | hgr
            · rw [hgf, hpathf] at hp
              obtain rfl := Option.some.inj hp
              exact downloadLoop_existsFS env dir total rest _ _
                (by simpa using existsFS_write_self st.fs (pathFor dir f u) body)
            · exact ihm g hgr p hp

/-- Second-run characterization: when every usable-URL record's target is
already present, the loop performs no content fetch, writes nothing, and
still counts every usable-URL record as satisfied. -/
theorem downloadLoop_allPresent (env : Env) (dir : String) (total : Nat) :
    ∀ (files : List ResourceRecord) (st : PipeState),
      (∀ f ∈ files, ∀ p, recPath dir f = some p → existsFS st.fs p = true) →
      (downloadLoop env dir total files st).fetches = st.fetches ∧
      (downloadLoop env dir total files st).downloaded = st.downloaded + countUrls files ∧
      (downloadLoop env dir total files st).fs = st.fs := by
  intro files
  induction files with
  | nil => intro st _; exact ⟨rfl, by simp [downloadLoop, countUrls], rfl⟩
  | cons f rest ih =>
    intro st h
    simp only [downloadLoop]
    cases hru : recUrl f with
    | none =>
      rw [processRecord_noUrl env dir total st f hru]
      obtain ⟨h1, h2, h3⟩ := ih
        { st with log := st.log ++ [LogLine.skippedNoUrl f.id f.typename] }
        (fun g hg p hp => by simpa using h g (List.mem_cons_of_mem f hg) p hp)
      refine ⟨by rw [h1], ?_, by rw [h3]⟩
      rw [h2]; simp [countUrls, List.countP_cons, hru]
    | some u =>
      have hp := h f (List.mem_cons_self f rest) (pathFor dir f u) (by simp [recPath, hru])
      rw [processRecord_present env dir total st f u hru hp]
      obtain ⟨h1, h2, h3⟩ := ih
        { st with
            downloaded := st.downloaded + 1,
            log := st.log ++ [LogLine.skippedPresent (st.downloaded + 1) total
              (resolveFileInfo f).folder (fileNameOf u)] }
        (fun g hg p hpp => by simpa using h g (List.mem_cons_of_mem f hg) p hpp)
      refine ⟨by rw [h1], ?_, by rw [h3]⟩
      rw [h2]; simp [countUrls, List.countP_cons, hru]; omega

/-- C2 counterexample: a record whose content fetch fails leaves no file
behind, so a second run over the same sequence re-fetches it — the claim's
"zero content fetches on the second run" fails for sequences with per-item
failures. -/
theorem downloadFiles_idempotent_counterexample :
    (downloadFiles ⟨fun _ => ContentResult.httpErr "Internal Server Error", fun _ => false⟩
        "out" [sampleRecord "GenericFile" "g1"]
        ((downloadFiles ⟨fun _ => ContentResult.httpErr "Internal Server Error", fun _ => false⟩
          "out" [sampleRecord "GenericFile" "g1"] []).fs)).fetches = 1 ∧
    (downloadFiles ⟨fun _ => ContentResult.httpErr "Internal Server Error", fun _ => false⟩
        "out" [sampleRecord "GenericFile" "g1"]
        ((downloadFiles ⟨fun _ => ContentResult.httpErr "Internal Server Error", fun _ => false⟩
          "out" [sampleRecord "GenericFile" "g1"] []).fs)).fetches ≠ 0 := by
  refine ⟨?_, ?_⟩ <;> decide

/-- C2 (amended): idempotence of the pipeline for runs without per-item
failures.  If every content fetch succeeds and no write fails, then re-running
`downloadFiles` over the same sequence against the filesystem left by the
first run performs zero content fetches — every record's target already
exists and is counted as satisfied — and reports the same `downloaded` count
as the first run.  (Without that proviso a failed item leaves no file and is
re-fetched on the second run, per the counterexample.) -/
theorem downloadFiles_idempotent (env : Env) (dir : String)
    (files : List ResourceRecord) (fs0 : FS) (hok : envOk env) :
    (downloadFiles env dir files ((downloadFiles env dir files fs0).fs)).fetches = 0 ∧
    (downloadFiles env dir files ((downloadFiles env dir files fs0).fs)).downloaded =
      (downloadFiles env dir files fs0).downloaded := by
  obtain ⟨hd1, hm1⟩ := downloadLoop_envOk env hok dir files.length files (initState fs0)
  have hfs1 : (downloadFiles env dir files fs0).fs =
      (downloadLoop env dir files.length files (initState fs0)).fs := by
    simp [downloadFiles]
  obtain ⟨h1, h2, h3⟩ := downloadLoop_allPresent env dir files.length files
    (initState ((downloadFiles env dir files fs0).fs))
    (fun f hf p hp => by
      have : (initState ((downloadFiles env dir files fs0).fs)).fs =
          (downloadLoop env dir files.length files (initState fs0)).fs := by
        rw [← hfs1]; rfl
      rw [this]
      exact hm1 f hf p hp)
  constructor
  · have : (downloadFiles env dir files ((downloadFiles env dir files fs0).fs)).fetches =
        (downloadLoop env dir files.length files
          (initState ((downloadFiles env dir files fs0).fs))).fetches := by
      simp [downloadFiles]
    rw [this, h1]
    rfl
  · have hr2 : (downloadFiles env dir files ((downloadFiles env dir files fs0).fs)).downloaded =
        (downloadLoop env dir files.length files
          (initState ((downloadFiles env dir files fs0).fs))).downloaded := by
      simp [downloadFiles]
    have hr1 : (downloadFiles env dir files fs0).downloaded =
        (downloadLoop env dir files.length files (initState fs0)).downloaded := by
      simp [downloadFiles]
    rw [hr2, h2, hr1, hd1]
    rfl

/-- Witness for C2 (amended) in a failure-free environment. -/
theorem downloadFiles_idempotent_witness :
    (downloadFiles ⟨fun _ => ContentResult.ok "payload", fun _ => false⟩ "out"
        [sampleRecord "GenericFile" "g1"]
        ((downloadFiles ⟨fun _ => ContentResult.ok "payload", fun _ => false⟩ "out"
          [sampleRecord "GenericFile" "g1"] []).fs)).fetches = 0 ∧
    (downloadFiles ⟨fun _ => ContentResult.ok "payload", fun _ => false⟩ "out"
        [sampleRecord "GenericFile" "g1"]
        ((downloadFiles ⟨fun _ => ContentResult.ok "payload", fun _ => false⟩ "out"
          [sampleRecord "GenericFile" "g1"] []).fs)).downloaded =
      (downloadFiles ⟨fun _ => ContentResult.ok "payload", fun _ => false⟩ "out"
        [sampleRecord "GenericFile" "g1"] []).downloaded :=
  downloadFiles_idempotent ⟨fun _ => ContentResult.ok "payload", fun _ => false⟩ "out"
    [sampleRecord "GenericFile" "g1"] [] ⟨fun _ => rfl, fun _ => rfl⟩

/-- C1 counterexample: a scripted sequence whose last page reports
`hasNextPage = false` but whose first page reports `true` with an empty edge
list makes `fetchAllFiles` throw on the last-edge cursor read instead of
returning the concatenated nodes, so the claim does not hold for every such
sequence. -/
theorem fetchAllFiles_terminates_exactly_counterexample :
    (fetchAllFiles [PageResult.ok ⟨some [], true⟩,
        PageResult.ok ⟨some [⟨"cur2", sampleRecord "GenericFile" "g1"⟩], false⟩]).result =
      Except.error FetchError.typeError ∧
    (fetchAllFiles [PageResult.ok ⟨some [], true⟩,
        PageResult.ok ⟨some [⟨"cur2", sampleRecord "GenericFile" "g1"⟩], false⟩]).result ≠
      Except.ok (([⟨some [], true⟩,
        ⟨some [⟨"cur2", sampleRecord "GenericFile" "g1"⟩], false⟩] : List Page).flatMap
          pageNodes) := by
  refine ⟨rfl, ?_⟩
  intro h
  rw [show (fetchAllFiles [PageResult.ok ⟨some [], true⟩,
      PageResult.ok ⟨some [⟨"cur2", sampleRecord "GenericFile" "g1"⟩], false⟩]).result =
      Except.error FetchError.typeError from rfl] at h
  exact Except.noConfusion h
